import Mathlib

/-!
Verification of the Smart LaTeX build orchestrator (`src/smlmk.py`).

The Python source is shallowly embedded below. Pure computations
(toolchain resolution, log filtering, job pairing, debounce arithmetic)
are translated directly; interactions with the outside world
(`subprocess.run`, `Path(...).exists()`, reading a `.tex` file for the
magic comment) are abstracted as oracles collected in an `Env` record,
and each observable side effect (spawning a process, renaming a file,
printing an error excerpt) is recorded as an `Event` in an emitted
trace, in source order.

Numbers are `Nat` (process exit codes) and `Rat` (the debounce clock);
strings are Lean `String`, with Python `str.splitlines` / `str.strip` /
regular-expression matching modelled character by character for the
`\n`-separated ASCII outputs the tool processes.
-/

/-- `TOOL_MAP` dictionary of `smlmk.py`: tool name to command template. -/
def TOOL_MAP (tool : String) : Option String :=
  if tool = "pdflatex" then some "pdflatex -file-line-error -interaction=nonstopmode {file}.tex"
  else if tool = "xelatex" then some "xelatex -file-line-error -interaction=nonstopmode {file}.tex"
  else if tool = "lualatex" then some "lualatex -file-line-error -interaction=nonstopmode {file}.tex"
  else if tool = "latex" then some "latex -file-line-error -interaction=nonstopmode {file}.tex"
  else if tool = "dvipdfmx" then some "dvipdfmx {file}"
  else if tool = "biber" then some "biber {file}"
  else if tool = "bibtex" then some "bibtex {file}"
  else if tool = "makeglossaries" then some "makeglossaries {file}"
  else none

/-- `TOOL_MAP.get(real_tool, f"\x7breal_tool\x7d \x7b\x7bfile\x7d\x7d")`:
a tool missing from the map becomes a literal command. -/
def lookupTool (tool : String) : String :=
  (TOOL_MAP tool).getD (tool ++ " {file}")

/-- The `clean_files` glob-pattern list of `smlmk.py`. -/
def clean_files : List String :=
  ["*.aux", "*.bbl", "*.blg", "*.dvi", "*.out", "*.log", "*.toc",
   "*.lof", "*.lot", "build/", "*.synctex.gz", "*.fls",
   "*.fdb_latexmk", "*.bcf", "*.run.xml", "*.glg", "*.gls", "*.glsdefs", "*.ist",
   "*.nav", "*.snm"]

/-- Observable side effects of one `run_build_cycle` invocation, in
source order: each `subprocess.run` call is a `spawn`, a
`print_error_summary` call records the displayed excerpt, a
`Path.rename` is a `rename`. -/
inductive Event where
  | spawn : String → Event
  | errorSummary : List String → Event
  | rename : String → String → Event
deriving DecidableEq

/-- `clean()`: one `subprocess.run(f"rm -rf \x7bpattern\x7d", shell=True)`
per pattern in `clean_files`. -/
def clean : List Event :=
  clean_files.map fun pattern => Event.spawn ("rm -rf " ++ pattern)

/-- A parsed `.pdfmake` configuration, as produced by `load_config`:
`compiler` is a scalar entry, `tool_chain` and `out` are list-valued
entries (`none` when the key is absent from the file). -/
structure Config where
  compiler : Option String
  tool_chain : Option (List String)
  out : Option (List String)
deriving DecidableEq

/-- External-world oracles for one run: whether a path exists on disk,
the `(returncode, stdout)` of a shell command, and the result of the
magic-comment scan `detect_compiler` performs on a `.tex` file. -/
structure Env where
  fileExists : String → Bool
  run : String → Nat × String
  detected : String → String

/-- `detect_compiler(tex_file_path)`: reads the first lines of the file
looking for a magic comment, defaulting to `pdflatex`; the file
inspection is abstracted as the `Env.detected` oracle. -/
def detect_compiler (env : Env) (tex_file_path : String) : String :=
  env.detected tex_file_path

/-- `compiler = config.get('compiler', detected)` in
`generate_build_rules`. -/
def effectiveCompiler (config : Config) (detected : String) : String :=
  config.compiler.getD detected

/-- The default chain synthesized by `generate_build_rules` when no
`tool_chain` is configured: the legacy `latex` engine gets a trailing
`dvipdfmx` step. -/
def defaultChain (compiler : String) : List String :=
  if compiler = "latex" then [compiler, "biber", compiler, compiler, "dvipdfmx"]
  else [compiler, "biber", compiler, compiler]

/-- `generate_build_rules(config, tex_file_path)` with the
`detect_compiler` call abstracted to its result `detected`. A present,
non-empty (truthy) `tool_chain` list is used as the chain of names,
otherwise the default chain is; every name equal to the placeholder
`"compiler"` is replaced by the effective compiler, and each resulting
name is looked up in `TOOL_MAP` with the literal-command fallback. -/
def generate_build_rules (config : Config) (detected : String) : List String :=
  let compiler := effectiveCompiler config detected
  let chain_names :=
    match config.tool_chain with
    | some tc => if tc.isEmpty then defaultChain compiler else tc
    | none => defaultChain compiler
  chain_names.map fun tool =>
    lookupTool (if tool = "compiler" then compiler else tool)

/-- C3: with no `tool_chain` entry the resolver yields the default
chain of the effective compiler — the five-step chain ending in
`dvipdfmx` exactly when that compiler is the legacy `latex` engine,
the four-step chain otherwise — each name mapped through the tool
map. -/
theorem C3_default_chain (config : Config) (detected : String)
    (h : config.tool_chain = none) :
    generate_build_rules config detected =
      (if effectiveCompiler config detected = "latex"
       then ["latex", "biber", "latex", "latex", "dvipdfmx"]
       else [effectiveCompiler config detected, "biber",
             effectiveCompiler config detected, effectiveCompiler config detected]).map
        lookupTool := by
  unfold generate_build_rules
  rw [h]
  by_cases hc : effectiveCompiler config detected = "latex"
  · rw [hc]
    simp [defaultChain, lookupTool, TOOL_MAP]
  · rw [if_neg hc]
    simp only [defaultChain, if_neg hc, List.map]
    by_cases hcc : effectiveCompiler config detected = "compiler"
    · rw [hcc]; simp
    · rw [if_neg hcc]
      simp

/-- Closed instance of `C3_default_chain`. -/
def configC3w : Config := { compiler := some "latex", tool_chain := none, out := none }

/-- Witness for C3 at a concrete config choosing the legacy engine. -/
theorem C3_default_chain_witness :
    configC3w.tool_chain = none ∧
    generate_build_rules configC3w "pdflatex" =
      (if effectiveCompiler configC3w "pdflatex" = "latex"
       then ["latex", "biber", "latex", "latex", "dvipdfmx"]
       else [effectiveCompiler configC3w "pdflatex", "biber",
             effectiveCompiler configC3w "pdflatex",
             effectiveCompiler configC3w "pdflatex"]).map lookupTool :=
  ⟨rfl, C3_default_chain configC3w "pdflatex" rfl⟩

/-- C6: with a non-empty explicit `tool_chain` the resolved rules are,
position by position, the configured names with every occurrence of the
placeholder `"compiler"` replaced by the effective compiler and nothing
else altered; a name unknown to `TOOL_MAP` other than the placeholder
passes through as the literal command `name ++ " \x7bfile\x7d"`. -/
theorem C6_explicit_chain (config : Config) (detected : String) (tc : List String)
    (h : config.tool_chain = some tc) (hne : tc ≠ []) :
    (∀ i : Nat, (generate_build_rules config detected)[i]? =
        tc[i]?.map fun tool =>
          lookupTool (if tool = "compiler" then effectiveCompiler config detected else tool)) ∧
    (∀ (i : Nat) (tool : String), tc[i]? = some tool → tool ≠ "compiler" →
        TOOL_MAP tool = none →
        (generate_build_rules config detected)[i]? = some (tool ++ " {file}")) := by
  have hempty : tc.isEmpty = false := by
    cases tc with
    | nil => exact absurd rfl hne
    | cons x xs => rfl
  have hrules : generate_build_rules config detected =
      tc.map fun tool =>
        lookupTool (if tool = "compiler" then effectiveCompiler config detected else tool) := by
    unfold generate_build_rules
    rw [h]
    simp only [hempty, Bool.false_eq_true, if_false]
  constructor
  · intro i
    rw [hrules, List.getElem?_map]
  · intro i tool hget hnc hmap
    rw [hrules, List.getElem?_map, hget]
    simp only [Option.map_some']
    rw [if_neg hnc]
    unfold lookupTool
    rw [hmap]
    rfl

/-- Closed instance for `C6_explicit_chain`. -/
def configC6w : Config :=
  { compiler := none,
    tool_chain := some ["compiler", "biber", "compiler", "mytool"],
    out := none }

/-- Character-level worker for Python `splitlines`: every `\n` ends a
line, a final unterminated segment is still a line, and the empty text
has no lines. -/
def splitlinesList : List Char → List (List Char)
  | [] => []
  | c :: rest =>
    if c = '\n' then [] :: splitlinesList rest
    else
      match splitlinesList rest with
      | [] => [[c]]
      | l :: ls => (c :: l) :: ls

/-- Python `s.splitlines()` restricted to `\n`-separated text (Python
also splits on `\r` and a few other terminators, which the tool outputs
modelled here do not contain). -/
def pySplitlines (s : String) : List String :=
  (splitlinesList s.toList).map String.mk

/-- Python `s.startswith(pre)`. -/
def pyStartswith (s pre : String) : Bool :=
  List.isPrefixOf pre.toList s.toList

/-- Python `s.strip()`: drop leading and trailing whitespace. -/
def pyStrip (s : String) : String :=
  String.mk (((s.toList.dropWhile Char.isWhitespace).reverse.dropWhile
    Char.isWhitespace).reverse)

/-- Acceptor for the regular expression `\d+:` — at least one ASCII
digit and then a colon (with the backtracking of `\d+` folded in:
consume digits until a colon appears). -/
def digitsColon : List Char → Bool
  | [] => false
  | c :: rest => if c = ':' then true else if c.isDigit then digitsColon rest else false

/-- After the opening colon of `:\d+:` there must be at least one
digit, then `digitsColon` takes over. -/
def firstDigit : List Char → Bool
  | [] => false
  | c :: rest => c.isDigit && digitsColon rest

/-- Search for `:\d+:` anywhere in the character list. -/
def hasFileLineMark : List Char → Bool
  | [] => false
  | c :: rest => (c = ':' && firstDigit rest) || hasFileLineMark rest

/-- `file_line_pattern = re.compile(r'^.*:\d+:.*')` applied with
`re.match` to one line: since `.` matches everything in a single line,
the pattern succeeds exactly when the line contains `:<digits>:`. -/
def file_line_match (line : String) : Bool :=
  hasFileLineMark line.toList

/-- `tex_error_pattern = re.compile(r'^! .*')` applied with `re.match`:
the line starts with `"! "`. -/
def tex_error_match (line : String) : Bool :=
  pyStartswith line "! "

/-- The `lines[i+1].strip().startswith('l.')` lookahead of
`print_error_summary`, applied to the remaining lines after the
matching one: the stripped context line is displayed when it starts
with `l.`. -/
def contextOf : List String → List String
  | next :: _ => if pyStartswith (pyStrip next) "l." then [pyStrip next] else []
  | [] => []

/-- The marker-scanning loop of `print_error_summary`: every line
matching either pattern is emitted, and after a `!`-line the stripped
following line is emitted too when it starts with `l.`. -/
def errorLines : List String → List String
  | [] => []
  | line :: rest =>
    (if file_line_match line || tex_error_match line
     then line :: (if tex_error_match line then contextOf rest else [])
     else []) ++ errorLines rest

/-- `print_error_summary(stdout_content)` modelled as the list of
diagnostic lines it displays between the banners (ANSI colours and the
`">> "` / indentation prefixes are presentation and omitted): the
marker lines when any marker was found, otherwise the last 20 lines. -/
def print_error_summary (stdout_content : String) : List String :=
  let lines := pySplitlines stdout_content
  let errs := errorLines lines
  if errs.isEmpty then lines.drop (lines.length - 20) else errs

/-- Witness for C6: placeholder resolved to the detected compiler at
position 0, unknown tool at position 3 passed through literally. -/
theorem C6_explicit_chain_witness :
    (generate_build_rules configC6w "xelatex")[0]? =
      (["compiler", "biber", "compiler", "mytool"] : List String)[0]?.map
        (fun tool =>
          lookupTool (if tool = "compiler" then effectiveCompiler configC6w "xelatex" else tool)) ∧
    (generate_build_rules configC6w "xelatex")[3]? = some ("mytool" ++ " {file}") :=
  ⟨(C6_explicit_chain configC6w "xelatex" _ rfl (by decide)).1 0,
   (C6_explicit_chain configC6w "xelatex" _ rfl (by decide)).2 3 "mytool" rfl
     (by decide) rfl⟩

/-- Unfolding equation for one step of the scanning loop. -/
theorem errorLines_cons (line : String) (rest : List String) :
    errorLines (line :: rest) =
      (if file_line_match line || tex_error_match line
       then line :: (if tex_error_match line then contextOf rest else [])
       else []) ++ errorLines rest := rfl

/-- When no line matches either marker pattern the scanning loop emits
nothing. -/
theorem errorLines_eq_nil (lines : List String)
    (h : ∀ l ∈ lines, file_line_match l = false ∧ tex_error_match l = false) :
    errorLines lines = [] := by
  induction lines with
  | nil => rfl
  | cons x xs ih =>
    have hx := h x (List.mem_cons_self x xs)
    rw [errorLines_cons, hx.1, hx.2,
        ih fun l hl => h l (List.mem_cons_of_mem x hl)]
    simp

/-- C7: on captured output with no marker line of either kind, the
displayed excerpt is the last 20 lines of the output, which is all of
it when there are at most 20 lines. -/
theorem C7_no_marker_tail (s : String)
    (h : ∀ line ∈ pySplitlines s,
        file_line_match line = false ∧ tex_error_match line = false) :
    print_error_summary s = (pySplitlines s).drop ((pySplitlines s).length - 20) ∧
    ((pySplitlines s).length ≤ 20 → print_error_summary s = pySplitlines s) := by
  have hnil := errorLines_eq_nil (pySplitlines s) h
  have h1 : print_error_summary s =
      (pySplitlines s).drop ((pySplitlines s).length - 20) := by
    show (if (errorLines (pySplitlines s)).isEmpty then
            (pySplitlines s).drop ((pySplitlines s).length - 20)
          else errorLines (pySplitlines s)) = _
    rw [hnil]
    rfl
  refine ⟨h1, fun hlen => ?_⟩
  rw [h1, Nat.sub_eq_zero_of_le hlen, List.drop_zero]

/-- Concrete marker-free captured output. -/
def outC7 : String := "This is TeX output\nall perfectly fine\nbye"

/-- Witness for C7: a three-line output with no markers is echoed in
full as the fallback tail. -/
theorem C7_no_marker_tail_witness :
    (∀ line ∈ pySplitlines outC7,
        file_line_match line = false ∧ tex_error_match line = false) ∧
    print_error_summary outC7 = (pySplitlines outC7).drop ((pySplitlines outC7).length - 20) ∧
    ((pySplitlines outC7).length ≤ 20 → print_error_summary outC7 = pySplitlines outC7) :=
  ⟨by decide, C7_no_marker_tail outC7 (by decide)⟩

/-- Two consecutive successful lookups split a list into an explicit
prefix, the two hits, and a suffix. -/
theorem getElem?_pair_split {α : Type} (l : List α) (i : Nat) (a b : α)
    (h1 : l[i]? = some a) (h2 : l[i + 1]? = some b) :
    ∃ pre rest, l = pre ++ a :: b :: rest := by
  induction i generalizing l with
  | zero =>
    match l with
    | [] => simp at h1
    | [x] => simp at h2
    | x :: y :: t =>
      simp only [List.getElem?_cons_zero, List.getElem?_cons_succ,
        Option.some.injEq] at h1 h2
      subst h1
      subst h2
      exact ⟨[], t, rfl⟩
  | succ n ih =>
    match l with
    | [] => simp at h1
    | x :: t =>
      have h1' : t[n]? = some a := by simpa using h1
      have h2' : t[n + 1]? = some b := by simpa using h2
      obtain ⟨pre, rest, heq⟩ := ih t h1' h2'
      exact ⟨x :: pre, rest, by rw [heq]; rfl⟩

/-- Stripping whitespace from a line that starts with `l.` leaves a
line that still starts with `l.`. -/
theorem pyStrip_keeps_prefix (s : String) (h : pyStartswith s "l." = true) :
    pyStartswith (pyStrip s) "l." = true := by
  unfold pyStartswith at h ⊢
  unfold pyStrip
  match hL : s.toList with
  | [] => rw [hL] at h; simp [List.isPrefixOf] at h
  | [c] => rw [hL] at h; simp [List.isPrefixOf] at h
  | c :: d :: t =>
    rw [hL] at h
    have hcd : 'l' = c ∧ '.' = d := by
      simpa [List.isPrefixOf] using h
    obtain ⟨hc, hd⟩ := hcd
    subst hc
    subst hd
    rw [List.dropWhile_cons_of_neg (by decide)]
    rw [show ('l' :: '.' :: t).reverse = t.reverse ++ ['.', 'l'] by simp]
    rw [List.dropWhile_append]
    cases hD : (t.reverse.dropWhile Char.isWhitespace).isEmpty with
    | true =>
      rw [if_pos rfl]
      rw [List.dropWhile_cons_of_neg (by decide)]
      rfl
    | false =>
      rw [if_neg Bool.false_ne_true]
      rw [List.reverse_append]
      simp [List.isPrefixOf]

/-- An infix of a list is an infix of any left-extension of it. -/
theorem infix_append_left {α : Type} (e : List α) {i l : List α}
    (h : i <:+: l) : i <:+: e ++ l := by
  obtain ⟨s, t, rfl⟩ := h
  exact ⟨e ++ s, t, by simp⟩

/-- A `!`-marker line followed by an `l.` context line yields both, in
order, inside the emitted marker lines. -/
theorem errorLines_pair (pre rest : List String) (l1 l2 : String)
    (hb : tex_error_match l1 = true)
    (hl : pyStartswith (pyStrip l2) "l." = true) :
    [l1, pyStrip l2] <:+: errorLines (pre ++ l1 :: l2 :: rest) := by
  induction pre with
  | nil =>
    have hstep : errorLines ([] ++ l1 :: l2 :: rest) =
        l1 :: pyStrip l2 :: errorLines (l2 :: rest) := by
      rw [List.nil_append, errorLines_cons, hb]
      simp [contextOf, hl]
    rw [hstep]
    exact ⟨[], errorLines (l2 :: rest), rfl⟩
  | cons x xs ih =>
    rw [List.cons_append, errorLines_cons]
    exact infix_append_left _ ih

/-- C8: when the split output has a line starting with `"! "`
immediately followed by a line starting with `"l."`, the displayed
excerpt contains the marker line and, directly after it, the
(whitespace-stripped) context line; in particular, when the context
line carries no surrounding whitespace the two lines appear verbatim,
adjacently and in order. -/
theorem C8_adjacent_context (s : String) (i : Nat) (l1 l2 : String)
    (h1 : (pySplitlines s)[i]? = some l1)
    (h2 : (pySplitlines s)[i + 1]? = some l2)
    (hb : pyStartswith l1 "! " = true)
    (hl : pyStartswith l2 "l." = true) :
    [l1, pyStrip l2] <:+: print_error_summary s ∧
    (pyStrip l2 = l2 → [l1, l2] <:+: print_error_summary s) := by
  obtain ⟨pre, rest, heq⟩ := getElem?_pair_split _ i l1 l2 h1 h2
  have hstrip := pyStrip_keeps_prefix l2 hl
  have hinfix := errorLines_pair pre rest l1 l2 hb hstrip
  have hne : errorLines (pySplitlines s) ≠ [] := by
    rw [heq]
    obtain ⟨u, v, huv⟩ := hinfix
    intro hcontra
    rw [hcontra] at huv
    simp at huv
  have hsum : print_error_summary s = errorLines (pySplitlines s) := by
    show (if (errorLines (pySplitlines s)).isEmpty then
            (pySplitlines s).drop ((pySplitlines s).length - 20)
          else errorLines (pySplitlines s)) = _
    cases hcase : errorLines (pySplitlines s) with
    | nil => exact absurd hcase hne
    | cons a as => rfl
  constructor
  · rw [hsum, heq]
    exact hinfix
  · intro hstripEq
    rw [hstripEq] at hinfix
    rw [hsum, heq]
    exact hinfix

/-- Concrete captured output with a fatal-error marker and its context
line. -/
def outC8 : String := "! Undefined control sequence.\nl.12 x"

/-- Witness for C8 on the canonical undefined-control-sequence
output. -/
theorem C8_adjacent_context_witness :
    (pySplitlines outC8)[0]? = some "! Undefined control sequence." ∧
    (pySplitlines outC8)[1]? = some "l.12 x" ∧
    pyStartswith "! Undefined control sequence." "! " = true ∧
    pyStartswith "l.12 x" "l." = true ∧
    [("! Undefined control sequence." : String), pyStrip "l.12 x"] <:+:
      print_error_summary outC8 :=
  ⟨by decide, by decide, by decide, by decide,
   (C8_adjacent_context outC8 0 "! Undefined control sequence." "l.12 x"
      (by decide) (by decide) (by decide) (by decide)).1⟩

/-- Characters of the `file` placeholder used by the command
templates. -/
def placeholderChars : List Char := "{file}".toList

/-- Python `rule.format(file=file_basename)` for templates whose only
replacement field is the `file` placeholder: substitute the base name
for each occurrence, scanning left to right. -/
def formatCmdChars (basename : List Char) : List Char → List Char
  | a :: b :: c :: d :: e :: f :: rest =>
    if [a, b, c, d, e, f] = placeholderChars then
      basename ++ formatCmdChars basename rest
    else a :: formatCmdChars basename (b :: c :: d :: e :: f :: rest)
  | l => l

/-- `rule.format(file=file_basename)` in `build`. -/
def formatCmd (rule file_basename : String) : String :=
  String.mk (formatCmdChars file_basename.toList rule.toList)

/-- The step loop of `build(file_basename, rules)`: run each formatted
command; on a nonzero exit code display the error summary of that
step's captured stdout and stop, reporting failure. -/
def buildSteps (env : Env) (file_basename : String) : List String → Bool × List Event
  | [] => (true, [])
  | rule :: rest =>
    let cmd := formatCmd rule file_basename
    let result := env.run cmd
    if result.1 ≠ 0 then
      (false, [Event.spawn cmd, Event.errorSummary (print_error_summary result.2)])
    else
      let r := buildSteps env file_basename rest
      (r.1, Event.spawn cmd :: r.2)

/-- `build(file_basename, rules)`: fail straight away (spawning
nothing) when the source document does not exist, otherwise run the
steps. -/
def build (env : Env) (file_basename : String) (rules : List String) : Bool × List Event :=
  if env.fileExists (file_basename ++ ".tex") then buildSteps env file_basename rules
  else (false, [])

/-- Python truthiness of `args.output` / a job's `out` field: a present,
non-empty string. -/
def truthyStr : Option String → Bool
  | some s => s != ""
  | none => false

/-- One build job of `run_build_cycle`: the dictionary
`\x7b'basename': ..., 'out': ...\x7d`. -/
structure Job where
  basename : String
  out : Option String
deriving DecidableEq

/-- The per-document `final_out` choice in the job-creation loop of
`run_build_cycle`: the CLI override when truthy, else entry `i` of the
configured out list when in range, else no rename. -/
def pairOut (args_output : Option String) (out_files : List String) (i : Nat) :
    Option String :=
  if truthyStr args_output then args_output
  else if 0 < out_files.length ∧ i < out_files.length then out_files[i]?
  else none

/-- The `for i, basename in enumerate(main_files)` loop building
`jobs`. -/
def makeJobsAux (args_output : Option String) (out_files : List String) :
    Nat → List String → List Job
  | _, [] => []
  | i, basename :: rest =>
    { basename := basename, out := pairOut args_output out_files i } ::
      makeJobsAux args_output out_files (i + 1) rest

/-- Parsed command-line flags of `smlmk.py` that `run_build_cycle`
reads. -/
structure Args where
  clean : Bool
  build : Bool
  build_clean : Bool
  clean_build : Bool
  watch : Bool
  output : Option String
deriving DecidableEq

/-- The job list built by `run_build_cycle` from the documents, the
configured `out` list and the CLI override. -/
def makeJobs (args : Args) (config : Config) (main_files : List String) : List Job :=
  makeJobsAux args.output (config.out.getD []) 0 main_files

/-- `no_flags` in `run_build_cycle`. -/
def no_flags (args : Args) : Bool :=
  !(args.clean || args.build || args.build_clean || args.clean_build || args.watch)

/-- `do_build` in `run_build_cycle`. -/
def do_build (args : Args) : Bool :=
  args.build || args.build_clean || args.clean_build || no_flags args || args.watch

/-- The `dst` computation of the rename step: force a `.pdf` ending,
turning a `.tex`-suffixed name into the same stem with `.pdf` (suffix
comparison is on the lowercased name, as in the source). -/
def outPdfName (final_out : String) : String :=
  if List.isSuffixOf ".pdf".toList (final_out.toList.map Char.toLower) then final_out
  else if List.isSuffixOf ".tex".toList (final_out.toList.map Char.toLower) then
    String.mk (final_out.toList.take (final_out.toList.length - 4)) ++ ".pdf"
  else final_out ++ ".pdf"

/-- `Path(s).name`: the component after the last slash (adequate for
the slash-free and non-slash-terminated names this tool builds). -/
def pathName (s : String) : String :=
  String.mk ((s.toList.reverse.takeWhile (fun c => c ≠ '/')).reverse)

/-- The per-job body of the batch loop in `run_build_cycle`: resolve
the rules, run `build`, and on success rename `<basename>.pdf` to the
desired output name when one is set, the PDF exists and the names
differ. -/
def runJob (env : Env) (config : Config) (job : Job) : Bool × List Event :=
  let rules := generate_build_rules config (detect_compiler env (job.basename ++ ".tex"))
  let r := build env job.basename rules
  if r.1 then
    if truthyStr job.out then
      let final_out := job.out.getD ""
      let src := job.basename ++ ".pdf"
      let dst := outPdfName final_out
      if env.fileExists src && (pathName src != pathName dst) then
        (true, r.2 ++ [Event.rename src dst])
      else (true, r.2)
    else (true, r.2)
  else (false, r.2)

/-- The batch loop of `run_build_cycle` over the job list: a failing
job clears `total_success` and breaks out of the loop. -/
def runBatch (env : Env) (config : Config) : List Job → Bool × List Event
  | [] => (true, [])
  | job :: rest =>
    let r := runJob env config job
    if r.1 then
      let b := runBatch env config rest
      (b.1, r.2 ++ b.2)
    else (false, r.2)

/-- How one `run_build_cycle` call ends: the early `No main file`
return, the `not do_build` return, a `sys.exit(1)` validation abort, or
normal completion carrying `total_success`. -/
inductive Outcome where
  | noMainFile : Outcome
  | skippedBuild : Outcome
  | exited : Nat → Outcome
  | completed : Bool → Outcome
deriving DecidableEq

/-- `run_build_cycle` of `smlmk.py`: the early-out checks, the
pre-build clean, fail-fast validation of the output-name pairing, the
job batch, and the deferred clean of a successful `-bc` run. Returns
the event trace in source order together with the outcome. -/
def run_build_cycle (env : Env) (args : Args) (config : Config)
    (file_basenames : List String) : List Event × Outcome :=
  if file_basenames.isEmpty && !args.clean then ([], Outcome.noMainFile)
  else
    let preClean := if args.clean_build || args.clean then clean else []
    if !do_build args then (preClean, Outcome.skippedBuild)
    else
      let main_files := file_basenames
      let out_files := config.out.getD []
      if truthyStr args.output = true ∧ 1 < main_files.length then
        (preClean, Outcome.exited 1)
      else if 0 < out_files.length ∧ main_files.length ≠ out_files.length then
        (preClean, Outcome.exited 1)
      else
        let jobs := makeJobs args config main_files
        let r := runBatch env config jobs
        let postClean := if args.build_clean && r.1 then clean else []
        (preClean ++ r.2 ++ postClean, Outcome.completed r.1)

/-- Arguments of the C1 counterexample run: `-b` with CLI override
`-o Y`. -/
def argsC1 : Args :=
  { clean := false, build := true, build_clean := false, clean_build := false,
    watch := false, output := some "Y" }

/-- Config of the C1 counterexample run: one configured out name
`X`. -/
def configC1 : Config :=
  { compiler := some "pdflatex", tool_chain := none, out := some ["X"] }

/-- C1 counterexample: with both a configured out list `["X"]` and a
CLI override `Y` for a single document, the claim pairs the document
with `X` (configured list first); the code pairs it with the CLI
override `Y`. -/
theorem C1_counterexample :
    makeJobs argsC1 configC1 ["doc"] = [{ basename := "doc", out := some "Y" }] ∧
    ¬ makeJobs argsC1 configC1 ["doc"] = [{ basename := "doc", out := some "X" }] := by
  decide

/-- The in-range guard around `out_files[i]` collapses: the branch is
exactly the partial lookup. -/
theorem pairOut_eq (args_output : Option String) (out_files : List String) (i : Nat) :
    pairOut args_output out_files i =
      if truthyStr args_output then args_output else out_files[i]? := by
  unfold pairOut
  by_cases h : truthyStr args_output = true
  · rw [if_pos h, if_pos h]
  · rw [if_neg h, if_neg h]
    by_cases h2 : 0 < out_files.length ∧ i < out_files.length
    · rw [if_pos h2]
    · rw [if_neg h2]
      rcases Decidable.not_and_iff_or_not.mp h2 with h3 | h3
    
      · have : out_files = [] := by
          cases out_files with
          | nil => rfl
          | cons x xs => exact absurd (Nat.succ_pos xs.length) h3
        rw [this]
        rfl
      · rw [List.getElem?_eq_none (Nat.le_of_not_lt h3)]

/-- Position lemma for the job-creation loop, for any starting
index. -/
theorem makeJobsAux_getElem? (args_output : Option String) (out_files : List String)
    (l : List String) : ∀ (k i : Nat),
    (makeJobsAux args_output out_files k l)[i]? =
      l[i]?.map fun b => { basename := b, out := pairOut args_output out_files (k + i) } := by
  induction l with
  | nil => intro k i; simp [makeJobsAux]
  | cons x xs ih =>
    intro k i
    cases i with
    | zero => simp [makeJobsAux]
    | succ n =>
      simp only [makeJobsAux, List.getElem?_cons_succ]
      rw [ih (k + 1) n]
      have harith : k + 1 + n = k + (n + 1) := by omega
      rw [harith]

/-- C1 amended: document `i` is paired with the CLI override when that
is present (truthy), else with output name `i` from the configured
list when that entry exists, else with no rename. -/
theorem C1_amended_pairing (args : Args) (config : Config)
    (main_files : List String) (i : Nat) (b : String)
    (h : main_files[i]? = some b) :
    (makeJobs args config main_files)[i]? =
      some { basename := b,
             out := if truthyStr args.output then args.output
                    else (config.out.getD [])[i]? } := by
  unfold makeJobs
  rw [makeJobsAux_getElem? args.output (config.out.getD []) main_files 0 i, h]
  simp only [Option.map_some']
  rw [pairOut_eq, Nat.zero_add]

/-- Witness for the amended C1 at the counterexample input: the CLI
override wins. -/
theorem C1_amended_pairing_witness :
    (["doc"] : List String)[0]? = some "doc" ∧
    (makeJobs argsC1 configC1 ["doc"])[0]? =
      some { basename := "doc",
             out := if truthyStr argsC1.output then argsC1.output
                    else (configC1.out.getD [])[0]? } :=
  ⟨rfl, C1_amended_pairing argsC1 configC1 ["doc"] 0 "doc" rfl⟩

/-- An environment in which everything exists, every command succeeds
and detection returns the default engine. -/
def envTrivial : Env :=
  { fileExists := fun _ => true, run := fun _ => (0, ""), detected := fun _ => "pdflatex" }

/-- `-cb` (clean then build), no other flags. -/
def argsC2clean : Args :=
  { clean := false, build := false, build_clean := false, clean_build := true,
    watch := false, output := none }

/-- `-b` only. -/
def argsC2build : Args :=
  { clean := false, build := true, build_clean := false, clean_build := false,
    watch := false, output := none }

/-- A config whose out list has length 1. -/
def configC2 : Config :=
  { compiler := some "pdflatex", tool_chain := none, out := some ["X"] }

/-- An empty config. -/
def configPlain : Config :=
  { compiler := none, tool_chain := none, out := none }

/-- An environment where only `b.tex` is missing. -/
def envC2miss : Env :=
  { fileExists := fun p => p != "b.tex", run := fun _ => (0, ""),
    detected := fun _ => "pdflatex" }

/-- C2 counterexample, refuting "detected before any process is
spawned ... no partial side effects" at two concrete inputs: (1) a
clean-first run with a 2-document / 1-out-name mismatch aborts with
exit 1, yet the cleanup pass has already spawned its `rm -rf`
processes; (2) a 2-document batch whose second source is missing
completes as failed, yet the first document's compiler processes were
spawned. -/
theorem C2_counterexample :
    ((run_build_cycle envTrivial argsC2clean configC2 ["a", "b"]).2 = Outcome.exited 1 ∧
     Event.spawn "rm -rf *.aux" ∈
       (run_build_cycle envTrivial argsC2clean configC2 ["a", "b"]).1) ∧
    ((run_build_cycle envC2miss argsC2build configPlain ["a", "b"]).2 =
       Outcome.completed false ∧
     Event.spawn "pdflatex -file-line-error -interaction=nonstopmode a.tex" ∈
       (run_build_cycle envC2miss argsC2build configPlain ["a", "b"]).1) := by
  decide

/-- C2 amended: (1) the out-list length mismatch and the
CLI-override-with-several-documents checks abort the whole batch with
exit code 1 before any toolchain process is spawned — the trace holds
only the cleanup pass, which does run first when a clean directive
accompanies the build; (2) a missing source document makes its job fail
before any of that job's processes is spawned; (3) a failed job stops
the batch on the spot. -/
theorem C2_amended_validation :
    (∀ (env : Env) (args : Args) (config : Config) (main_files : List String),
        main_files ≠ [] →
        do_build args = true →
        ((truthyStr args.output = true ∧ 1 < main_files.length) ∨
         (0 < (config.out.getD []).length ∧
          main_files.length ≠ (config.out.getD []).length)) →
        run_build_cycle env args config main_files =
          ((if args.clean_build || args.clean then clean else []), Outcome.exited 1)) ∧
    (∀ (env : Env) (config : Config) (b : String) (o : Option String),
        env.fileExists (b ++ ".tex") = false →
        runJob env config { basename := b, out := o } = (false, [])) ∧
    (∀ (env : Env) (config : Config) (j : Job) (rest : List Job),
        (runJob env config j).1 = false →
        runBatch env config (j :: rest) = (false, (runJob env config j).2)) := by
  refine ⟨?_, ?_, ?_⟩
  · intro env args config main_files hne hdo hval
    have h1 : (main_files.isEmpty && !args.clean) = false := by
      cases main_files with
      | nil => exact absurd rfl hne
      | cons x xs => rfl
    simp only [run_build_cycle, h1, Bool.false_eq_true, if_false, hdo, Bool.not_true]
    rcases hval with ⟨ho, hm⟩ | ⟨hlen, hmm⟩
    · rw [if_pos ⟨ho, hm⟩]
    · by_cases hfirst : truthyStr args.output = true ∧ 1 < main_files.length
      · rw [if_pos hfirst]
      · rw [if_neg hfirst, if_pos ⟨hlen, hmm⟩]
  · intro env config b o hmiss
    simp only [runJob, build, hmiss, Bool.false_eq_true, if_false]
  · intro env config j rest hfail
    simp only [runBatch, hfail, Bool.false_eq_true, if_false]

/-- Witness for the amended C2 at the clean-first mismatch input. -/
theorem C2_amended_validation_witness :
    (["a", "b"] : List String) ≠ [] ∧ do_build argsC2clean = true ∧
    (0 < (configC2.out.getD []).length ∧
      (["a", "b"] : List String).length ≠ (configC2.out.getD []).length) ∧
    run_build_cycle envTrivial argsC2clean configC2 ["a", "b"] =
      ((if argsC2clean.clean_build || argsC2clean.clean then clean else []),
       Outcome.exited 1) :=
  ⟨by decide, by decide, by decide,
   C2_amended_validation.1 envTrivial argsC2clean configC2 ["a", "b"]
     (by decide) (by decide) (Or.inr (by decide))⟩

/-- C4: once a job fails, the batch result is failure and the trace
stops with the failing job's events — the jobs after it contribute
nothing, so no process is ever invoked for them. -/
theorem C4_batch_short_circuit (env : Env) (config : Config)
    (pre post : List Job) (j : Job)
    (hpre : ∀ job ∈ pre, (runJob env config job).1 = true)
    (hj : (runJob env config j).1 = false) :
    runBatch env config (pre ++ j :: post) =
      (false, (pre.map fun job => (runJob env config job).2).flatten ++
        (runJob env config j).2) := by
  induction pre with
  | nil =>
    simp only [List.nil_append, runBatch, hj, Bool.false_eq_true, if_false,
      List.map_nil, List.flatten_nil, List.nil_append]
  | cons x xs ih =>
    have hx := hpre x (List.mem_cons_self x xs)
    simp only [List.cons_append, runBatch, hx, if_true, List.append_eq]
    rw [ih fun job hm => hpre job (List.mem_cons_of_mem x hm)]
    simp

/-- Jobs for the C4 witness: A fails, B would succeed. -/
def jobA : Job := { basename := "a", out := none }

/-- Companion job for the C4 witness. -/
def jobB : Job := { basename := "b", out := none }

/-- An environment where only the compilation of `a.tex` fails. -/
def envC4 : Env :=
  { fileExists := fun _ => true,
    run := fun c =>
      if c = "pdflatex -file-line-error -interaction=nonstopmode a.tex"
      then (1, "boom") else (0, ""),
    detected := fun _ => "pdflatex" }

/-- Witness for C4: with job A failing, the batch [A, B] fails carrying
only A's events. -/
theorem C4_batch_short_circuit_witness :
    (runJob envC4 configPlain jobA).1 = false ∧
    runBatch envC4 configPlain ([] ++ jobA :: [jobB]) =
      (false, (([] : List Job).map fun job => (runJob envC4 configPlain job).2).flatten ++
        (runJob envC4 configPlain jobA).2) :=
  ⟨by decide,
   C4_batch_short_circuit envC4 configPlain [] [jobB] jobA
     (by intro job hm; cases hm) (by decide)⟩

/-- All steps before the failing one exit zero: the step loop spawns
them, spawns the failing command, displays the excerpt of its captured
stdout, and stops. -/
theorem buildSteps_fail (env : Env) (b : String) (pre post : List String) (rule : String)
    (hpre : ∀ r ∈ pre, (env.run (formatCmd r b)).1 = 0)
    (hfail : (env.run (formatCmd rule b)).1 ≠ 0) :
    buildSteps env b (pre ++ rule :: post) =
      (false, (pre.map fun r => Event.spawn (formatCmd r b)) ++
        [Event.spawn (formatCmd rule b),
         Event.errorSummary (print_error_summary (env.run (formatCmd rule b)).2)]) := by
  induction pre with
  | nil =>
    simp only [List.nil_append, buildSteps]
    rw [if_pos hfail]
    simp
  | cons x xs ih =>
    have hx : (env.run (formatCmd x b)).1 = 0 := hpre x (List.mem_cons_self x xs)
    simp only [List.cons_append, buildSteps, List.append_eq]
    rw [if_neg (by simp [hx])]
    rw [ih fun r hr => hpre r (List.mem_cons_of_mem x hr)]
    simp

/-- C5: when a toolchain step exits nonzero, the job trace is exactly
the spawns of the completed earlier steps (still present — nothing is
rolled back), the failing spawn, and the displayed excerpt computed
from that step's captured standard output; no later step of the job is
spawned and the job fails. -/
theorem C5_step_failure (env : Env) (b : String) (pre post : List String) (rule : String)
    (hTex : env.fileExists (b ++ ".tex") = true)
    (hpre : ∀ r ∈ pre, (env.run (formatCmd r b)).1 = 0)
    (hfail : (env.run (formatCmd rule b)).1 ≠ 0) :
    build env b (pre ++ rule :: post) =
      (false, (pre.map fun r => Event.spawn (formatCmd r b)) ++
        [Event.spawn (formatCmd rule b),
         Event.errorSummary (print_error_summary (env.run (formatCmd rule b)).2)]) := by
  unfold build
  rw [hTex]
  simp only [if_true]
  exact buildSteps_fail env b pre post rule hpre hfail

/-- An environment for the C5 witness: the second command fails with a
marker-free two-line output. -/
def envC5 : Env :=
  { fileExists := fun _ => true,
    run := fun c => if c = "failtool doc" then (1, "oh\nno") else (0, ""),
    detected := fun _ => "pdflatex" }

/-- Witness for C5: one successful step, then a failing one; its stdout
tail is displayed. -/
theorem C5_step_failure_witness :
    envC5.fileExists ("doc" ++ ".tex") = true ∧
    (envC5.run (formatCmd "failtool {file}" "doc")).1 ≠ 0 ∧
    build envC5 "doc" (["oktool {file}"] ++ "failtool {file}" :: ["latertool {file}"]) =
      (false, ((["oktool {file}"] : List String).map
          fun r => Event.spawn (formatCmd r "doc")) ++
        [Event.spawn (formatCmd "failtool {file}" "doc"),
         Event.errorSummary (print_error_summary
           (envC5.run (formatCmd "failtool {file}" "doc")).2)]) :=
  ⟨rfl, by decide,
   C5_step_failure envC5 "doc" ["oktool {file}"] ["latertool {file}"] "failtool {file}"
     rfl (by decide) (by decide)⟩

/-- All steps exiting zero make the step loop succeed with one spawn
per step. -/
theorem buildSteps_ok (env : Env) (b : String) (rules : List String)
    (h : ∀ r ∈ rules, (env.run (formatCmd r b)).1 = 0) :
    buildSteps env b rules = (true, rules.map fun r => Event.spawn (formatCmd r b)) := by
  induction rules with
  | nil => rfl
  | cons x xs ih =>
    have hx := h x (List.mem_cons_self x xs)
    simp only [buildSteps]
    rw [if_neg (by simp [hx])]
    rw [ih fun r hr => h r (List.mem_cons_of_mem x hr)]
    simp

/-- A rename event never hides among spawn events. -/
theorem rename_not_mem_spawns (rules : List String) (f : String → Event)
    (hf : ∀ r, ∃ c, f r = Event.spawn c) (s d : String) :
    Event.rename s d ∉ rules.map f := by
  intro hmem
  obtain ⟨r, -, hr⟩ := List.mem_map.mp hmem
  obtain ⟨c, hc⟩ := hf r
  rw [hc] at hr
  exact Event.noConfusion hr

/-- C10: when every resolved step of a job exits zero the job succeeds
even if no `<basename>.pdf` exists afterwards — in that case no rename
is attempted — and any rename that does occur presupposes that the PDF
exists and that source and destination names differ. -/
theorem C10_success_without_pdf (env : Env) (config : Config) (job : Job)
    (hTex : env.fileExists (job.basename ++ ".tex") = true)
    (hOk : ∀ r ∈ generate_build_rules config (detect_compiler env (job.basename ++ ".tex")),
        (env.run (formatCmd r job.basename)).1 = 0) :
    (runJob env config job).1 = true ∧
    (env.fileExists (job.basename ++ ".pdf") = false →
        ∀ s d, Event.rename s d ∉ (runJob env config job).2) ∧
    (∀ s d, Event.rename s d ∈ (runJob env config job).2 →
        env.fileExists (job.basename ++ ".pdf") = true ∧ pathName s ≠ pathName d) := by
  have hspawn : ∀ r, ∃ c,
      (fun r => Event.spawn (formatCmd r job.basename)) r = Event.spawn c :=
    fun r => ⟨formatCmd r job.basename, rfl⟩
  have hbuild : build env job.basename
      (generate_build_rules config (detect_compiler env (job.basename ++ ".tex"))) =
      (true, (generate_build_rules config
        (detect_compiler env (job.basename ++ ".tex"))).map
          fun r => Event.spawn (formatCmd r job.basename)) := by
    unfold build
    rw [hTex]
    simp only [if_true]
    exact buildSteps_ok env job.basename _ hOk
  cases htr : truthyStr job.out with
  | false =>
    have heq : runJob env config job =
        (true, (generate_build_rules config
          (detect_compiler env (job.basename ++ ".tex"))).map
            fun r => Event.spawn (formatCmd r job.basename)) := by
      simp [runJob, hbuild, htr]
    rw [heq]
    exact ⟨rfl,
      fun _ s d => rename_not_mem_spawns _ _ hspawn s d,
      fun s d hmem => absurd hmem (rename_not_mem_spawns _ _ hspawn s d)⟩
  | true =>
    cases hg : (env.fileExists (job.basename ++ ".pdf") &&
        (pathName (job.basename ++ ".pdf") != pathName (outPdfName (job.out.getD "")))) with
    | false =>
      have heq : runJob env config job =
          (true, (generate_build_rules config
            (detect_compiler env (job.basename ++ ".tex"))).map
              fun r => Event.spawn (formatCmd r job.basename)) := by
        simp [runJob, hbuild, htr, hg]
      rw [heq]
      exact ⟨rfl,
        fun _ s d => rename_not_mem_spawns _ _ hspawn s d,
        fun s d hmem => absurd hmem (rename_not_mem_spawns _ _ hspawn s d)⟩
    | true =>
      obtain ⟨hex, hdiff⟩ := Bool.and_eq_true_iff.mp hg
      have heq : runJob env config job =
          (true, ((generate_build_rules config
            (detect_compiler env (job.basename ++ ".tex"))).map
              fun r => Event.spawn (formatCmd r job.basename)) ++
            [Event.rename (job.basename ++ ".pdf") (outPdfName (job.out.getD ""))]) := by
        simp [runJob, hbuild, htr, hg]
      rw [heq]
      refine ⟨rfl, ?_, ?_⟩
      · intro hpdf
        rw [hpdf] at hex
        simp at hex
      · intro s d hmem
        rcases List.mem_append.mp hmem with hsp | hone
        · exact absurd hsp (rename_not_mem_spawns _ _ hspawn s d)
        · have hsd : s = job.basename ++ ".pdf" ∧ d = outPdfName (job.out.getD "") := by
            simpa using hone
          obtain ⟨hs1, hd1⟩ := hsd
          subst hs1
          subst hd1
          refine ⟨hex, ?_⟩
          simpa using hdiff

/-- An environment for the C10 witness: only `.tex` files exist, so the
finished job has no PDF to rename. -/
def envC10 : Env :=
  { fileExists := fun p => List.isSuffixOf ".tex".toList p.toList,
    run := fun _ => (0, "fine"), detected := fun _ => "pdflatex" }

/-- Job for the C10 witness, with a desired output name. -/
def jobC10 : Job := { basename := "doc", out := some "Final" }

/-- Witness for C10: every step exits zero, no `doc.pdf` exists, the
job still succeeds and no rename event is emitted. -/
theorem C10_success_without_pdf_witness :
    envC10.fileExists ("doc" ++ ".tex") = true ∧
    envC10.fileExists ("doc" ++ ".pdf") = false ∧
    (runJob envC10 configPlain jobC10).1 = true ∧
    (∀ s d, Event.rename s d ∉ (runJob envC10 configPlain jobC10).2) :=
  ⟨by decide, by decide,
   (C10_success_without_pdf envC10 configPlain jobC10 (by decide) (by decide)).1,
   (C10_success_without_pdf envC10 configPlain jobC10 (by decide) (by decide)).2.1
     (by decide)⟩

/-- The `BuildHandler` state of the watch loop: the time of the last
trigger and the fixed quiescence interval (the rebuild callback is
modelled by the Bool returned from `on_any_event`). -/
structure BuildHandler where
  last_triggered : Rat
  debounce_interval : Rat
deriving DecidableEq

/-- `BuildHandler.__init__`: `last_triggered = 0`,
`debounce_interval = 0.5`. -/
def BuildHandler.init : BuildHandler :=
  { last_triggered := 0, debounce_interval := 1 / 2 }

/-- `BuildHandler.on_any_event`: ignore `.pdf` paths; otherwise fire
the rebuild callback exactly when more than the debounce interval has
passed since the last trigger, updating the trigger time. Returns the
new state and whether a rebuild was triggered. -/
def on_any_event (handler : BuildHandler) (src_path : String) (current_time : Rat) :
    BuildHandler × Bool :=
  if List.isSuffixOf ".pdf".toList src_path.toList then (handler, false)
  else if handler.debounce_interval < current_time - handler.last_triggered then
    ({ handler with last_triggered := current_time }, true)
  else (handler, false)

/-- Fold a timed event sequence through the handler, counting the
rebuilds it triggers. -/
def processEvents (handler : BuildHandler) : List (String × Rat) → BuildHandler × Nat
  | [] => (handler, 0)
  | (p, t) :: rest =>
    let r := on_any_event handler p t
    let after := processEvents r.1 rest
    (after.1, (if r.2 then 1 else 0) + after.2)

/-- C9: a rebuild is triggered only when at least the 0.5 quiescence
interval has elapsed since the previous trigger; two non-PDF events 0.1
time units apart trigger exactly one rebuild, and two events 1.0 time
units apart trigger two. -/
theorem C9_debounce :
    (∀ (handler : BuildHandler) (path : String) (t : Rat),
        handler.debounce_interval = 1 / 2 →
        (on_any_event handler path t).2 = true →
        1 / 2 ≤ t - handler.last_triggered) ∧
    (processEvents BuildHandler.init [("main.tex", 1), ("main.tex", 11 / 10)]).2 = 1 ∧
    (processEvents BuildHandler.init [("main.tex", 1), ("main.tex", 2)]).2 = 2 := by
  have hpdf : List.isSuffixOf ".pdf".toList "main.tex".toList = false := by decide
  refine ⟨?_, ?_, ?_⟩
  · intro handler path t hint hev
    unfold on_any_event at hev
    by_cases hp : List.isSuffixOf ".pdf".toList path.toList = true
    · rw [if_pos hp] at hev
      simp at hev
    · rw [if_neg hp] at hev
      by_cases hd : handler.debounce_interval < t - handler.last_triggered
      · rw [hint] at hd
        exact le_of_lt hd
      · rw [if_neg hd] at hev
        simp at hev
  · simp only [processEvents, on_any_event, BuildHandler.init, hpdf,
      Bool.false_eq_true, if_false]
    norm_num
  · simp only [processEvents, on_any_event, BuildHandler.init, hpdf,
      Bool.false_eq_true, if_false]
    norm_num

/-- Witness for C9 at a concrete fresh handler and one non-PDF event at
time 1. -/
theorem C9_debounce_witness :
    BuildHandler.init.debounce_interval = 1 / 2 ∧
    (on_any_event BuildHandler.init "main.tex" 1).2 = true ∧
    (1 : Rat) / 2 ≤ 1 - BuildHandler.init.last_triggered := by
  have hpdf : List.isSuffixOf ".pdf".toList "main.tex".toList = false := by decide
  have hev : (on_any_event BuildHandler.init "main.tex" 1).2 = true := by
    simp only [on_any_event, BuildHandler.init, hpdf, Bool.false_eq_true, if_false]
    norm_num
  exact ⟨rfl, hev, C9_debounce.1 BuildHandler.init "main.tex" 1 rfl hev⟩
